import Mathlib

/-!
Verification development for the `read_Timer` repository
(`src/read_Timer/__init__.py`): a decoder for the PSRCHIVE "Timer"
binary pulsar-data format.

The Python source is shallowly embedded:
* a binary file is a `List Nat` of byte values, with an explicit cursor
  (`ByteStream`) mirroring Python file-object semantics (`read` returns
  fewer bytes at end of file without raising; relative `seek` may move
  the cursor past the end of the data);
* fallible code returns `Except ReadError _` / `Except SchemaError _`,
  whose constructors mirror the Python exceptions actually raised
  (`struct.error`, `KeyError`, `IndexError`, `UnicodeDecodeError`,
  `OSError` from a negative seek);
* IEEE-754 values are decoded to exact rationals by the standard
  sign/exponent/mantissa formula, and arithmetic on them is exact
  rational arithmetic (no rounding is modelled);
* the schema description files `data/timer.h`, `data/band.h` and
  `data/mini.h` are not part of `src/`; their contents are modelled from
  the spec where needed (marked `Modelled from the spec:` below).
-/

set_option maxRecDepth 10000

namespace ReadTimer

/-- Error kinds surfaced by a file read.  They name the Python
exceptions the source can actually raise while reading:
`structError` is `struct.error` (byte-count mismatch in `struct.unpack`),
`indexError` is `IndexError` (indexing an empty subint list),
`unicodeError` is `UnicodeDecodeError` from an unwrapped `bytes.decode`,
`seekError` is the `OSError` raised by seeking to a negative offset,
`nameError` is the `NameError` from `Keyword.read` on an unknown dtype. -/
inductive ReadError where
  | structError
  | indexError
  | unicodeError
  | seekError
  | nameError
deriving DecidableEq

/-- A seekable byte source: the file contents plus the cursor position.
The cursor may lie beyond the end of `data` (Python permits seeking past
the end of a file). -/
structure ByteStream where
  data : List Nat
  pos : Nat
deriving DecidableEq

/-- Python `f.read(n)` on a binary file: a negative `n` reads to end of
file; otherwise at most `n` bytes are returned, fewer when the file ends
first, with no error either way.  The cursor advances by the number of
bytes actually returned. -/
def pyRead (n : Int) (s : ByteStream) : List Nat × ByteStream :=
  if n < 0 then
    (s.data.drop s.pos, ⟨s.data, max s.pos s.data.length⟩)
  else
    let k := min n.toNat (s.data.length - s.pos)
    ((s.data.drop s.pos).take k, ⟨s.data, s.pos + k⟩)

/-- Python `f.seek(off, 1)` (relative seek): fails (OSError) when the
resulting absolute position would be negative, and otherwise succeeds,
even when the target lies beyond the end of the file.  No end-of-file
or bounds check of any kind is performed. -/
def pySeek (off : Int) (s : ByteStream) : Except ReadError ByteStream :=
  if (s.pos : Int) + off < 0 then .error .seekError
  else .ok ⟨s.data, ((s.pos : Int) + off).toNat⟩

/-- Big-endian bytes to a natural number. -/
def beNat (bs : List Nat) : Nat :=
  bs.foldl (fun a b => a * 256 + b) 0

/-- Big-endian 4 bytes to a signed 32-bit value (`struct.unpack(">i")`),
two's complement (the powers 2^31 and 2^32 written as literals). -/
def beInt (bs : List Nat) : Int :=
  let v := beNat bs
  if 2147483648 ≤ v then (v : Int) - 4294967296 else (v : Int)

/-- Exact rational addition, computed on the numerator/denominator
representation (definitionally reducible, unlike the library's
`Rat.add`); proved equal to `+` in `qAdd_eq`. -/
def qAdd (a b : ℚ) : ℚ :=
  mkRat (a.num * (b.den : Int) + b.num * (a.den : Int)) (a.den * b.den)

/-- Exact rational division, computed on the numerator/denominator
representation (definitionally reducible, unlike the library's
`Rat.div`); proved equal to `/` in `qDiv_eq`. -/
def qDiv (a b : ℚ) : ℚ :=
  if b.num < 0 then mkRat (-(a.num * (b.den : Int))) (a.den * b.num.natAbs)
  else mkRat (a.num * (b.den : Int)) (a.den * b.num.natAbs)

/-- IEEE-754 binary64 big-endian decode (`struct.unpack(">d")`) to an
exact rational by the sign/exponent/mantissa formula.  The non-finite
encodings (exponent `0x7FF`) are mapped by the same formula, i.e. the
model has no infinities or NaNs; no claim depends on such values. -/
def f64Val (bs : List Nat) : ℚ :=
  let n : Nat := beNat bs
  let sgn : Int := if n / 9223372036854775808 = 0 then 1 else -1
  let e : Nat := n / 4503599627370496 % 2048
  let m : Nat := n % 4503599627370496
  if e = 0 then mkRat (sgn * m) (Nat.shiftLeft 1 1074)
  else if 1075 ≤ e then
    mkRat (sgn * ((4503599627370496 + m) * Nat.shiftLeft 1 (e - 1075) : Nat)) 1
  else mkRat (sgn * (4503599627370496 + m : Nat)) (Nat.shiftLeft 1 (1075 - e))

/-- IEEE-754 binary32 big-endian decode (`struct.unpack(">f")`) to an
exact rational, same conventions as `f64Val`. -/
def f32Val (bs : List Nat) : ℚ :=
  let n : Nat := beNat bs
  let sgn : Int := if n / 2147483648 = 0 then 1 else -1
  let e : Nat := n / 8388608 % 256
  let m : Nat := n % 8388608
  if e = 0 then mkRat (sgn * m) (Nat.shiftLeft 1 149)
  else if 150 ≤ e then
    mkRat (sgn * ((8388608 + m) * Nat.shiftLeft 1 (e - 150) : Nat)) 1
  else mkRat (sgn * (8388608 + m : Nat)) (Nat.shiftLeft 1 (150 - e))

/-- UTF-8 decode of a byte list (`bytes.decode()`), returning `none` on
invalid input exactly when CPython raises `UnicodeDecodeError`:
continuation bytes checked, overlong encodings, surrogates and
codepoints above `0x10FFFF` rejected. -/
def utf8Decode : List Nat → Option (List Char)
  | [] => some []
  | b :: rest =>
    if b < 128 then
      (utf8Decode rest).map (fun cs => Char.ofNat b :: cs)
    else if 194 ≤ b ∧ b ≤ 223 then
      match rest with
      | b2 :: rest2 =>
        if 128 ≤ b2 ∧ b2 ≤ 191 then
          (utf8Decode rest2).map
            (fun cs => Char.ofNat ((b - 192) * 64 + (b2 - 128)) :: cs)
        else none
      | [] => none
    else if 224 ≤ b ∧ b ≤ 239 then
      match rest with
      | b2 :: b3 :: rest3 =>
        if (128 ≤ b2 ∧ b2 ≤ 191) ∧ (b = 224 → 160 ≤ b2) ∧ (b = 237 → b2 ≤ 159)
            ∧ (128 ≤ b3 ∧ b3 ≤ 191) then
          (utf8Decode rest3).map
            (fun cs =>
              Char.ofNat ((b - 224) * 4096 + (b2 - 128) * 64 + (b3 - 128)) :: cs)
        else none
      | _ => none
    else if 240 ≤ b ∧ b ≤ 244 then
      match rest with
      | b2 :: b3 :: b4 :: rest4 =>
        if (128 ≤ b2 ∧ b2 ≤ 191) ∧ (b = 240 → 144 ≤ b2) ∧ (b = 244 → b2 ≤ 143)
            ∧ (128 ≤ b3 ∧ b3 ≤ 191) ∧ (128 ≤ b4 ∧ b4 ≤ 191) then
          (utf8Decode rest4).map
            (fun cs =>
              Char.ofNat ((b - 240) * 262144 + (b2 - 128) * 4096
                + (b3 - 128) * 64 + (b4 - 128)) :: cs)
        else none
      | _ => none
    else none

/-- Python `str.rstrip("\x00")`: remove trailing NUL characters. -/
def dropTrailNul (cs : List Char) : List Char :=
  (cs.reverse.dropWhile (fun c => c = Char.ofNat 0)).reverse

/-- Read `n` bytes and decode them as text, Python
`fptr.read(size).decode().rstrip("\x00")` wrapped in
`try/except UnicodeDecodeError`: a decode failure is absorbed (a warning
is logged and the value becomes `None`), and a short read is not
detected at all. -/
def readChar (n : Int) (s : ByteStream) : Option String × ByteStream :=
  let r := pyRead n s
  match utf8Decode r.1 with
  | some cs => (some (String.mk (dropTrailNul cs)), r.2)
  | none => (none, r.2)

/-- Read 4 bytes and decode `struct.unpack(">i")`: fails with
`struct.error` unless exactly 4 bytes were obtained. -/
def readI32 (s : ByteStream) : Except ReadError (Int × ByteStream) :=
  let r := pyRead 4 s
  if r.1.length = 4 then .ok (beInt r.1, r.2) else .error .structError

/-- Read 8 bytes and decode `struct.unpack(">d")`: fails with
`struct.error` unless exactly 8 bytes were obtained. -/
def readF64 (s : ByteStream) : Except ReadError (ℚ × ByteStream) :=
  let r := pyRead 8 s
  if r.1.length = 8 then .ok (f64Val r.1, r.2) else .error .structError

/-- The dtype strings of the source's `_data_lengths` table. -/
def dtChar : String := "char"

/-- Dtype string for 32-bit signed integers. -/
def dtInt : String := "int"

/-- Dtype string for 32-bit floats. -/
def dtFloat : String := "float"

/-- Dtype string for 64-bit floats. -/
def dtDouble : String := "double"

/-- Dtype string for 32-bit unsigned integers. -/
def dtUint : String := "uint32_t"

/-- The `_data_lengths` table of the source: byte sizes of the scalar
dtypes. -/
def data_lengths : List (String × Int) :=
  [(dtInt, 4), (dtFloat, 4), (dtDouble, 8), (dtUint, 4)]

/-- A decoded runtime value, as `Keyword.value` can hold it:
a Python int, float (exact rational model), decoded string, or `None`
(after an absorbed text-decode failure). -/
inductive PyVal where
  | int (i : Int)
  | float (q : ℚ)
  | str (s : String)
  | none
deriving DecidableEq

/-- A field descriptor: `Keyword` of the source (`name`, `dtype`,
byte `size`).  The source stores the size as a plain Python int set
either from `_data_lengths` or from a char-array length, hence `Int`. -/
structure Keyword where
  name : String
  dtype : String
  size : Int
deriving DecidableEq

/-- Embedding of `Keyword.read` of the source: read `self.size` bytes from the
stream and decode by dtype.  A char field absorbs decode failures
(value `None`, warning logged) and never fails; the numeric dtypes
fail with `struct.error` when fewer bytes than the struct format
requires were obtained; an unknown dtype leaves the local `result`
unbound, a `NameError`. -/
def Keyword.read (k : Keyword) (s : ByteStream) :
    Except ReadError (PyVal × ByteStream) :=
  let r := pyRead k.size s
  if k.dtype = dtChar then
    match utf8Decode r.1 with
    | some cs => .ok (.str (String.mk (dropTrailNul cs)), r.2)
    | Option.none => .ok (.none, r.2)
  else if k.dtype = dtInt then
    if r.1.length = 4 then .ok (.int (beInt r.1), r.2) else .error .structError
  else if k.dtype = dtFloat then
    if r.1.length = 4 then .ok (.float (f32Val r.1), r.2)
    else .error .structError
  else if k.dtype = dtDouble then
    if r.1.length = 8 then .ok (.float (f64Val r.1), r.2)
    else .error .structError
  else if k.dtype = dtUint then
    if r.1.length = 4 then .ok (.int (beNat r.1), r.2)
    else .error .structError
  else .error .nameError

/-- Whether an `Except` result is a success. -/
def isOk {ε α : Type} : Except ε α → Bool
  | .ok _ => true
  | .error _ => false

/-- The whitespace characters of Python `str.split()` / `str.strip()`. -/
def isPySpace (c : Char) : Bool :=
  c = Char.ofNat 32 ∨ c = Char.ofNat 9 ∨ c = Char.ofNat 10 ∨
    c = Char.ofNat 11 ∨ c = Char.ofNat 12 ∨ c = Char.ofNat 13

/-- Python `str.strip()`: remove leading and trailing whitespace. -/
def pyStrip (l : List Char) : List Char :=
  ((l.dropWhile isPySpace).reverse.dropWhile isPySpace).reverse

/-- One step of the whitespace splitter: push a character onto the
current chunk, or close the chunk at a whitespace character. -/
def wsStep (c : Char) (st : List Char × List (List Char)) :
    List Char × List (List Char) :=
  if isPySpace c then ([], if st.1 = [] then st.2 else st.1 :: st.2)
  else (c :: st.1, st.2)

/-- Python `str.split()` (no separator): split on runs of whitespace,
discarding empty pieces. -/
def pySplitWs (l : List Char) : List (List Char) :=
  let st := l.foldr wsStep ([], [])
  if st.1 = [] then st.2 else st.1 :: st.2

/-- Python `str.split(sep)` for a one-character separator: split on
every occurrence, keeping empty pieces. -/
def splitOnChar (c : Char) : List Char → List (List Char)
  | [] => [[]]
  | x :: rest =>
    if x = c then [] :: splitOnChar c rest
    else
      match splitOnChar c rest with
      | g :: gs => (x :: g) :: gs
      | [] => [[x]]

/-- Drop list elements up to and including the first occurrence of `c`. -/
def dropThroughChar (c : Char) : List Char → List Char
  | [] => []
  | x :: rest => if x = c then rest else dropThroughChar c rest

/-- Drop list elements up to and including the first `*/` pair;
`none` when there is no such pair. -/
def dropThroughSS : List Char → Option (List Char)
  | [] => Option.none
  | [_] => Option.none
  | x :: y :: rest =>
    if x = '*' ∧ y = '/' then some rest else dropThroughSS (y :: rest)

/-- Fuel-indexed comment-stripping scan; every step consumes at least
one character, so fuel equal to the input length always suffices and
the fuel-exhausted branch is unreachable. -/
def stripAux : Nat → List Char → List Char
  | 0, l => l
  | _ + 1, [] => []
  | fuel + 1, '/' :: '/' :: rest =>
    if '\n' ∈ rest then stripAux fuel (dropThroughChar '\n' rest)
    else '/' :: stripAux fuel ('/' :: rest)
  | fuel + 1, '/' :: '*' :: rest =>
    match dropThroughSS rest with
    | some r => stripAux fuel r
    | Option.none => '/' :: stripAux fuel ('*' :: rest)
  | fuel + 1, c :: rest => c :: stripAux fuel rest

/-- The source's `stripcomments`: Python
`re.sub("//.*?\n|/\x2a.*?\x2a/", "", text, flags=re.S)` — a scan that,
at each position, removes a `//` comment through the first following
newline, else a `/\x2a ... \x2a/` comment through the first closing
pair, else keeps the character (an unterminated comment is kept
verbatim, as the non-greedy pattern then fails to match). -/
def stripcomments (l : List Char) : List Char :=
  stripAux l.length l

/-- Value of a nonempty digit string. -/
def digitsVal (l : List Char) : Nat :=
  l.foldl (fun a c => a * 10 + (c.toNat - 48)) 0

/-- Python `int(str)`: optional surrounding whitespace, an optional
sign, then a nonempty run of decimal digits; anything else raises
`ValueError` (`none`).  Digit-grouping underscores are not modelled. -/
def pyInt (l : List Char) : Option Int :=
  match pyStrip l with
  | [] => none
  | c :: rest =>
    if c = '+' then
      if rest ≠ [] ∧ rest.all Char.isDigit then some (digitsVal rest) else none
    else if c = '-' then
      if rest ≠ [] ∧ rest.all Char.isDigit then some (-(digitsVal rest : Int))
      else none
    else if (c :: rest).all Char.isDigit then some (digitsVal (c :: rest))
    else none

/-- Failure kinds of the schema loader `get_definition`: the Python
exceptions it can raise.  `keyError` is the `KeyError` from looking up
an undefined char-array length constant; `indexError` is the
`IndexError` from `varname.split("[")[1]` on a `char` declaration with
no bracket. -/
inductive SchemaError where
  | keyError (name : String)
  | indexError
deriving DecidableEq

/-- Dictionary lookup in an association list (first match). -/
def tblLookup : List (String × Int) → String → Option Int
  | [], _ => Option.none
  | (n, v) :: rest, key => if n = key then some v else tblLookup rest key

/-- Python dict insertion: overwrite in place when the key exists,
else append. -/
def tblInsert : List (String × Int) → String → Int → List (String × Int)
  | [], n, v => [(n, v)]
  | (n0, v0) :: rest, n, v =>
    if n0 = n then (n, v) :: rest else (n0, v0) :: tblInsert rest n v

/-- Python dict insertion for the ordered keyword dictionary:
overwrite in place when the name exists, else append. -/
def kwInsert : List Keyword → Keyword → List Keyword
  | [], k => [k]
  | k0 :: rest, k =>
    if k0.name = k.name then k :: rest else k0 :: kwInsert rest k

/-- List of chars of the `//` line-comment marker. -/
def slashSlash : List Char := ['/', '/']

/-- List of chars of `#define`. -/
def defineTok : List Char := ['#', 'd', 'e', 'f', 'i', 'n', 'e']

/-- List of chars of the dtype `char`. -/
def dtCharL : List Char := ['c', 'h', 'a', 'r']

/-- List of chars of the keyword `struct`. -/
def structTok : List Char := ['s', 't', 'r', 'u', 'c', 't']

/-- The opening square bracket of a char-array declaration. -/
def lbrack : Char := Char.ofNat 91

/-- The closing square bracket of a char-array declaration. -/
def rbrack : Char := Char.ofNat 93

/-- The opening curly brace excluding `struct ... {` lines. -/
def lbrace : Char := Char.ofNat 123

/-- The first pass of `get_definition`: collect `#define NAME VALUE`
lines (exactly three whitespace tokens, integer value) into the
char-array length table. -/
def buildTable : List (List Char) → List (String × Int) → List (String × Int)
  | [], tbl => tbl
  | line :: rest, tbl =>
    if defineTok.isPrefixOf line ∧ (pySplitWs line).length = 3 then
      match pySplitWs line with
      | [_, nm, val] =>
        match pyInt val with
        | some v => buildTable rest (tblInsert tbl (String.mk nm) v)
        | Option.none => buildTable rest tbl
      | _ => buildTable rest tbl
    else buildTable rest tbl

/-- Token shape of a candidate field-declaration line: the part before
the first `;`, split on whitespace; two tokens give `type name`; three
tokens whose first is `struct`, on a line without `{`, give
`struct type name`; anything else is skipped. -/
def lineTokens (line : List Char) : Option (List Char × List Char) :=
  let goodline := line.takeWhile (fun c => c ≠ ';')
  match pySplitWs goodline with
  | [t, n] => some (t, n)
  | [a, b, c] =>
    if a = structTok ∧ ¬ lbrace ∈ goodline then some (b, c) else Option.none
  | _ => Option.none

/-- One iteration of the declaration-scanning loop of
`get_definition`: comment/directive/blank lines and lines without a
statement terminator are skipped; a `char` declaration resolves its
array length as a literal integer or, failing that (`ValueError`), by
a length-table lookup whose failure is a fatal `KeyError`; a `char`
declaration with no `[` raises `IndexError`. -/
def processLine (tbl : List (String × Int)) (acc : List Keyword)
    (line : List Char) : Except SchemaError (List Keyword) :=
  if slashSlash.isPrefixOf line || [Char.ofNat 35].isPrefixOf line then .ok acc
  else if (pyStrip line).isEmpty then .ok acc
  else if ! line.contains ';' then .ok acc
  else
    match lineTokens line with
    | Option.none => .ok acc
    | some (vartype, varname) =>
      if vartype = dtCharL then
        match (splitOnChar lbrack varname).get? 1 with
        | Option.none => .error .indexError
        | some inner =>
          let innerClean := inner.filter (fun c => c ≠ rbrack)
          let nm := String.mk (varname.takeWhile (fun c => c ≠ lbrack))
          match pyInt innerClean with
          | some len => .ok (kwInsert acc ⟨nm, dtChar, len⟩)
          | Option.none =>
            match tblLookup tbl (String.mk innerClean) with
            | some len => .ok (kwInsert acc ⟨nm, dtChar, len⟩)
            | Option.none => .error (.keyError (String.mk innerClean))
      else
        .ok (kwInsert acc
          ⟨String.mk varname, String.mk vartype,
            (tblLookup data_lengths (String.mk vartype)).getD 0⟩)

/-- The declaration-scanning loop of `get_definition` over all lines;
the first raised exception aborts the whole load. -/
def loadLines (tbl : List (String × Int)) (acc : List Keyword) :
    List (List Char) → Except SchemaError (List Keyword)
  | [] => .ok acc
  | line :: rest =>
    match processLine tbl acc line with
    | .error e => .error e
    | .ok acc' => loadLines tbl acc' rest

/-- The source's `get_definition`, applied to the text of a schema
header file (the file-system access of the original is outside the
model): strip comments, split into lines, build the `#define` length
table, then scan the declarations in order. -/
def get_definition (text : List Char) : Except SchemaError (List Keyword) :=
  let lines := splitOnChar '\n' (stripcomments text)
  loadLines (buildTable lines []) [] lines

/-- A line that is parsed as a `char` text-array field declaration
whose bracketed length is not an integer literal and names a constant
absent from the length table — the undefined-constant condition of the
spec, stated structurally over the same parsing helpers the loader
uses. -/
def charRefUndefined (tbl : List (String × Int)) (line : List Char) : Bool :=
  !(slashSlash.isPrefixOf line || [Char.ofNat 35].isPrefixOf line) &&
  !(pyStrip line).isEmpty &&
  line.contains ';' &&
  (match lineTokens line with
   | some (vt, vn) =>
     vt = dtCharL &&
     (match (splitOnChar lbrack vn).get? 1 with
      | some inner =>
        (pyInt (inner.filter (fun c => c ≠ rbrack))).isNone &&
        (tblLookup tbl (String.mk (inner.filter (fun c => c ≠ rbrack)))).isNone
      | Option.none => false)
   | Option.none => false)

/-- One decoded band record, with the derived attributes the source
extracts (`frequency` = `centrefreq`, `bandwidth` = `bw`, `npol`).
Modelled from the spec: `data/band.h` is not under `src/`; the band
schema is modelled with the fields the reader uses — `centrefreq`
(float64), `bw` (float64), `npol` (int32) — 20 bytes in all. -/
structure BandVal where
  centrefreq : ℚ
  bw : ℚ
  npol : Int
deriving DecidableEq

/-- Embedding of `Band.read` of the source: read the whole fixed band region with
one `fptr.read` and decode it with a single `struct.unpack` of the
concatenated format sequence, which raises `struct.error` unless the
byte count matches the format exactly; then populate the keyword
values in declaration order. -/
def bandRead (s : ByteStream) : Except ReadError (BandVal × ByteStream) :=
  let r := pyRead 20 s
  if r.1.length = 20 then
    .ok (⟨f64Val (r.1.take 8), f64Val ((r.1.drop 8).take 8),
      beInt (r.1.drop 16)⟩, r.2)
  else .error .structError

/-- The decoded header keyword values.  Modelled from the spec:
`data/timer.h` is not under `src/`; the header schema is modelled with
the fields the reader uses, one structure field per keyword, in a fixed
declaration order (the source stores them in an ordered keyword
dictionary).  Char fields are `Option String` because an absorbed text
decode failure leaves `None`. -/
structure HeaderFields where
  telid : Option String
  psrname : Option String
  ra : ℚ
  dec : ℚ
  l : ℚ
  b : ℚ
  coord_type : Option String
  nsub_int : Int
  nsub_band : Int
  nbin : Int
  wts_and_bpass : Int
  be_data_size : Int
  nbytespoly : Int
  nbytesephem : Int
  banda : BandVal
deriving DecidableEq

/-- Total byte size of the modelled fixed (non-band) header keywords:
two char fields of 8 and 16 bytes, four float64 fields, one 2-byte char
field and seven int32 fields. -/
def timerFixedSize : Int := 8 + 16 + 8 + 8 + 8 + 8 + 2 + 4 * 7

/-- Byte size of the embedded band region (modelled band schema). -/
def bandSize : Int := 20

/-- Byte size of the modelled subint schema (`data/mini.h`):
int32 `mjd`, float64 `fracmjd`, float64 `integration`. -/
def miniSize : Int := 20

/-- The keyword loop of `TimerHeader.read` over the modelled header
schema, unrolled in declaration order: each scalar keyword is read as
`Keyword.read` reads its dtype, and the `band`-dtype keyword triggers a
full `Band.read` inline. -/
def readHeaderFields (s0 : ByteStream) :
    Except ReadError (HeaderFields × ByteStream) :=
  let r1 := readChar 8 s0
  let r2 := readChar 16 r1.2
  match readF64 r2.2 with
  | .error e => .error e
  | .ok (ra, s3) =>
  match readF64 s3 with
  | .error e => .error e
  | .ok (dec, s4) =>
  match readF64 s4 with
  | .error e => .error e
  | .ok (gall, s5) =>
  match readF64 s5 with
  | .error e => .error e
  | .ok (galb, s6) =>
  let r7 := readChar 2 s6
  match readI32 r7.2 with
  | .error e => .error e
  | .ok (nsub_int, s8) =>
  match readI32 s8 with
  | .error e => .error e
  | .ok (nsub_band, s9) =>
  match readI32 s9 with
  | .error e => .error e
  | .ok (nbin, s10) =>
  match readI32 s10 with
  | .error e => .error e
  | .ok (wts, s11) =>
  match readI32 s11 with
  | .error e => .error e
  | .ok (be, s12) =>
  match readI32 s12 with
  | .error e => .error e
  | .ok (npoly, s13) =>
  match readI32 s13 with
  | .error e => .error e
  | .ok (nephem, s14) =>
  match bandRead s14 with
  | .error e => .error e
  | .ok (banda, s15) =>
    .ok (⟨r1.1, r2.1, ra, dec, gall, galb, r7.1, nsub_int,
      nsub_band, nbin, wts, be, npoly, nephem, banda⟩, s15)

/-- One decoded subint record with its derived attributes:
`starttime` = `mjd + fracmjd` (days), `integration` in seconds. -/
structure SubintVal where
  mjd : Int
  fracmjd : ℚ
  integration : ℚ
  starttime : ℚ
deriving DecidableEq

/-- Embedding of `Subint.read` of the source over the modelled subint schema
(`data/mini.h` is not under `src/`; modelled from the spec with the
fields the reader uses: `mjd` int32, `fracmjd` float64, `integration`
float64), followed by the derived start time and duration. -/
def subintRead (s0 : ByteStream) : Except ReadError (SubintVal × ByteStream) :=
  match readI32 s0 with
  | .error e => .error e
  | .ok (mjd, s1) =>
  match readF64 s1 with
  | .error e => .error e
  | .ok (fracmjd, s2) =>
  match readF64 s2 with
  | .error e => .error e
  | .ok (integ, s3) =>
    .ok (⟨mjd, fracmjd, integ, qAdd (mkRat mjd 1) fracmjd⟩, s3)

/-- Truthiness of `self["wts_and_bpass"]` as tested by
`subint_data_size`: `TimerHeader.__getitem__` returns the `Keyword`
object itself (not its decoded value), and class `Keyword` defines
neither `__bool__` nor `__len__`, so Python's `bool()` of it is `True`
whatever the decoded flag value is. -/
def wtsFlagTest (_h : HeaderFields) : Bool := true

/-- The flag-dependent branch of `TimerHeader.subint_data_size`:
the `if self["wts_and_bpass"]:` branch assigns
`nchannels * 4 * (1 + 2*npol)`, the `else` branch
`4*2 + nchannels * npol * nbin * 2` — with `nchannels` the header's
`nsub_band` value and `npol` the embedded band's `npol` value. -/
def subint_branch_term (h : HeaderFields) : Int :=
  if wtsFlagTest h then h.nsub_band * 4 * (1 + 2 * h.banda.npol)
  else 4 * 2 + h.nsub_band * h.banda.npol * h.nbin * 2

/-- Embedding of `TimerHeader.subint_data_size`: the branch term plus
`nchannels * (4*2 + 4*2)` plus `nchannels * (2*4 + nbin*2)`. -/
def subint_data_size (h : HeaderFields) : Int :=
  subint_branch_term h
    + h.nsub_band * (4 * 2 + 4 * 2)
    + h.nsub_band * (2 * 4 + h.nbin * 2)

/-- The celestial position the source builds via `SkyCoord`:
either (ra, dec) interpreted in radians, or (l, b) interpreted in
degrees in the galactic frame (coordinate construction itself is an
external numeric-library call; the constructor records which fields
and units were used). -/
inductive PositionVal where
  | equatorialRad (ra dec : ℚ)
  | galacticDeg (l b : ℚ)
deriving DecidableEq

/-- The equatorial coordinate-type discriminant string. -/
def ct05 : String := "05"

/-- The galactic coordinate-type discriminant string. -/
def ct04 : String := "04"

/-- The coordinate-type branch of `TimerHeader.read`: discriminant
`"05"` builds the position from (`ra` rad, `dec` rad), `"04"` from
(`l` deg, `b` deg, galactic frame); any other value logs a warning and
leaves the position `None`.  Returns (position, warning-emitted). -/
def coordPosition (h : HeaderFields) : Option PositionVal × Bool :=
  if h.coord_type = some ct05 then
    (some (.equatorialRad h.ra h.dec), false)
  else if h.coord_type = some ct04 then
    (some (.galacticDeg h.l h.b), false)
  else (Option.none, true)

/-- Embedding of `TimerHeader.read` up to and including the optional
polynomial-coefficient text blob: the header keyword loop, the ignored
backend blob of `be_data_size` bytes, then — only when `nbytespoly > 0`
— the polyco text of `nbytespoly` bytes, whose `bytes.decode()` is not
wrapped in a `try` and therefore aborts on invalid text. -/
def readPreEphem (data : List Nat) :
    Except ReadError (HeaderFields × Option String × ByteStream) :=
  match readHeaderFields ⟨data, 0⟩ with
  | .error e => .error e
  | .ok (h, s1) =>
    let s2 := (pyRead h.be_data_size s1).2
    if 0 < h.nbytespoly then
      let r3 := pyRead h.nbytespoly s2
      match utf8Decode r3.1 with
      | Option.none => .error .unicodeError
      | some cs => .ok (h, some (String.mk (dropTrailNul cs)), r3.2)
    else .ok (h, Option.none, s2)

/-- Embedding of `TimerHeader.read` up to and including the ephemeris text blob:
`f.read(nbytesephem)` (which silently returns fewer bytes at end of
file) followed by an unwrapped `bytes.decode().rstrip("\x00")`. -/
def readPreSubints (data : List Nat) :
    Except ReadError (HeaderFields × Option String × String × ByteStream) :=
  match readPreEphem data with
  | .error e => .error e
  | .ok (h, polyco, s3) =>
    let r4 := pyRead h.nbytesephem s3
    match utf8Decode r4.1 with
    | Option.none => .error .unicodeError
    | some cs => .ok (h, polyco, String.mk (dropTrailNul cs), r4.2)

/-- Embedding of `TimerHeader.read_subints`: for each of the declared number of
subints (a non-positive count yields an empty loop), read the fixed
subint fields, accumulate the duration, then skip the variable payload
with a relative seek of `subint_data_size` bytes. -/
def readSubintsAux (sds : Int) :
    Nat → ByteStream → ℚ → Except ReadError (List SubintVal × ℚ × ByteStream)
  | 0, s, dur => .ok ([], dur, s)
  | n + 1, s, dur =>
    match subintRead s with
    | .error e => .error e
    | .ok (sub, s1) =>
      match pySeek sds s1 with
      | .error e => .error e
      | .ok s2 =>
        match readSubintsAux sds n s2 (qAdd dur sub.integration) with
        | .error e => .error e
        | .ok (rest, dur', s3) => .ok (sub :: rest, dur', s3)

/-- The fully decoded header object `TimerHeader.read` produces:
keyword values, polyco and ephemeris text, coordinate-branch outcome,
the subint list, and the derived start time (= first subint's start
time, days), total duration (sum of subint integrations, seconds) and
stop time (= start + duration, the seconds-to-days conversion the
external time library performs written out explicitly). -/
structure TimerHeaderRes where
  fields : HeaderFields
  polyco : Option String
  ephem : String
  position : Option PositionVal
  coordWarning : Bool
  subints : List SubintVal
  starttime : ℚ
  duration : ℚ
  stoptime : ℚ
deriving DecidableEq

/-- Embedding of `TimerHeader.read` on the full file contents: header keywords,
backend blob, optional polyco text, ephemeris text, coordinate branch,
subint loop, then the derived attributes — where indexing
`self.subints[0]` of an empty subint list raises `IndexError`. -/
def timerRead (data : List Nat) :
    Except ReadError (TimerHeaderRes × ByteStream) :=
  match readPreSubints data with
  | .error e => .error e
  | .ok (h, polyco, ephem, s4) =>
    let pw := coordPosition h
    match readSubintsAux (subint_data_size h) h.nsub_int.toNat s4 0 with
    | .error e => .error e
    | .ok (subs, dur, s5) =>
      match subs with
      | [] => .error .indexError
      | sub0 :: _ =>
        .ok (⟨h, polyco, ephem, pw.1, pw.2, subs, sub0.starttime, dur,
          qAdd sub0.starttime (qDiv dur (86400 : ℚ))⟩, s5)

/-- Decidable equality of `Except` results, for evaluating the decoder
on concrete inputs. -/
instance {ε α : Type} [DecidableEq ε] [DecidableEq α] :
    DecidableEq (Except ε α)
  | .ok a, .ok b =>
    if h : a = b then .isTrue (by rw [h]) else .isFalse (by simp [h])
  | .ok _, .error _ => .isFalse (by simp)
  | .error _, .ok _ => .isFalse (by simp)
  | .error a, .error b =>
    if h : a = b then .isTrue (by rw [h]) else .isFalse (by simp [h])

/-- The §3 invariant's total, exactly as the spec words it: fixed
header schema size + embedded band size + backend-blob length +
polynomial-text length + ephemeris-text length + subint count ×
(subint schema size + variable payload size). -/
def specConsumedSum (r : TimerHeaderRes) : Int :=
  timerFixedSize + bandSize + r.fields.be_data_size
    + r.fields.nbytespoly + r.fields.nbytesephem
    + r.fields.nsub_int * (miniSize + subint_data_size r.fields)

/-- A well-formed 126-byte Timer file for the modelled schema: telescope
`AAAAAAAA`, pulsar `BBBBBBBBBBBBBBBB`, zero coordinates, coordinate
type `05`, one subint, zero channel/bin/flag/blob-length fields, an
all-zero band and one all-zero subint record. -/
def fileTemplate : List Nat :=
  List.replicate 8 65 ++ List.replicate 16 66
    ++ List.replicate 32 0
    ++ [48, 53]
    ++ [0, 0, 0, 1]
    ++ List.replicate 24 0
    ++ List.replicate 20 0
    ++ List.replicate 20 0

/-- The header keyword values `fileTemplate` decodes to. -/
def hTemplate : HeaderFields :=
  ⟨some ("AAAAAAAA"), some ("BBBBBBBBBBBBBBBB"), 0, 0, 0, 0, some ("05"),
    1, 0, 0, 0, 0, 0, 0, ⟨0, 0, 0⟩⟩

/-- The full decode result of `fileTemplate`. -/
def resTemplate : TimerHeaderRes :=
  ⟨hTemplate, Option.none, "", some (PositionVal.equatorialRad 0 0), false,
    [⟨0, 0, 0, 0⟩], 0, 0, 0⟩

/-- Variant of `fileTemplate` with the declared polynomial-text length replaced by
−4 (bytes `ff ff ff fc`): still a successfully decoding file, since a
non-positive declared length skips the polyco read entirely. -/
def fileNegPoly : List Nat :=
  List.replicate 8 65 ++ List.replicate 16 66
    ++ List.replicate 32 0
    ++ [48, 53]
    ++ [0, 0, 0, 1]
    ++ List.replicate 16 0
    ++ [255, 255, 255, 252]
    ++ [0, 0, 0, 0]
    ++ List.replicate 20 0
    ++ List.replicate 20 0

/-- The header keyword values `fileNegPoly` decodes to. -/
def hNegPoly : HeaderFields :=
  ⟨some ("AAAAAAAA"), some ("BBBBBBBBBBBBBBBB"), 0, 0, 0, 0, some ("05"),
    1, 0, 0, 0, 0, -4, 0, ⟨0, 0, 0⟩⟩

/-- The full decode result of `fileNegPoly`. -/
def resNegPoly : TimerHeaderRes :=
  ⟨hNegPoly, Option.none, "", some (PositionVal.equatorialRad 0 0), false,
    [⟨0, 0, 0, 0⟩], 0, 0, 0⟩

/-- Variant of `fileTemplate` with coordinate-type bytes `99`: a discriminant
outside the known set `{"04", "05"}`. -/
def file99 : List Nat :=
  List.replicate 8 65 ++ List.replicate 16 66
    ++ List.replicate 32 0
    ++ [57, 57]
    ++ [0, 0, 0, 1]
    ++ List.replicate 24 0
    ++ List.replicate 20 0
    ++ List.replicate 20 0

/-- The header keyword values `file99` decodes to. -/
def h99 : HeaderFields :=
  ⟨some ("AAAAAAAA"), some ("BBBBBBBBBBBBBBBB"), 0, 0, 0, 0, some ("99"),
    1, 0, 0, 0, 0, 0, 0, ⟨0, 0, 0⟩⟩

/-- The full decode result of `file99`: position undefined, warning
emitted, decode successful. -/
def res99 : TimerHeaderRes :=
  ⟨h99, Option.none, "", Option.none, true,
    [⟨0, 0, 0, 0⟩], 0, 0, 0⟩

/-- A 106-byte file that is only the fixed header and band regions,
declaring zero subints. -/
def file0 : List Nat :=
  List.replicate 8 65 ++ List.replicate 16 66
    ++ List.replicate 32 0
    ++ [48, 53]
    ++ List.replicate 28 0
    ++ List.replicate 20 0

/-- The header keyword values `file0` decodes to. -/
def h0 : HeaderFields :=
  ⟨some ("AAAAAAAA"), some ("BBBBBBBBBBBBBBBB"), 0, 0, 0, 0, some ("05"),
    0, 0, 0, 0, 0, 0, 0, ⟨0, 0, 0⟩⟩

/-- A 106-byte file that is only the fixed header and band regions, but
declares one subint and an ephemeris text of 5 bytes — the file ends
before the declared ephemeris text. -/
def fileEphTrunc : List Nat :=
  List.replicate 8 65 ++ List.replicate 16 66
    ++ List.replicate 32 0
    ++ [48, 53]
    ++ [0, 0, 0, 1]
    ++ List.replicate 20 0
    ++ [0, 0, 0, 5]
    ++ List.replicate 20 0

/-- The header keyword values `fileEphTrunc` decodes to. -/
def hEphTrunc : HeaderFields :=
  ⟨some ("AAAAAAAA"), some ("BBBBBBBBBBBBBBBB"), 0, 0, 0, 0, some ("05"),
    1, 0, 0, 0, 0, 0, 5, ⟨0, 0, 0⟩⟩

/-- A schema source text containing a text-array field whose length
constant `STR` is never defined. -/
def badSchemaText : List Char :=
  String.toList ("int x;\nchar name[STR];\n")


/-- A decoded header state whose weights-and-bandpass flag value is
false (`wts_and_bpass = 0`), with 8 channels (`nsub_band`), 2
polarisations (band `npol`) and 4 bins. -/
def hFlagFalse : HeaderFields :=
  ⟨Option.none, Option.none, 0, 0, 0, 0, Option.none, 1, 8, 4, 0, 0, 0, 0,
    ⟨0, 0, 2⟩⟩

/-- A decoded header state whose weights-and-bandpass flag value is
true (`wts_and_bpass = 1`), with 8 channels, 2 polarisations, 4 bins. -/
def hFlagTrue : HeaderFields :=
  ⟨Option.none, Option.none, 0, 0, 0, 0, Option.none, 1, 8, 4, 1, 0, 0, 0,
    ⟨0, 0, 2⟩⟩

/-! ## Theorems: basic facts about the byte-level primitives -/

/-- Computable `qAdd` is ordinary rational addition. -/
theorem qAdd_eq (a b : ℚ) : qAdd a b = a + b := by
  have ha : ((a.den : ℚ)) ≠ 0 := Nat.cast_ne_zero.mpr a.den_nz
  have hb : ((b.den : ℚ)) ≠ 0 := Nat.cast_ne_zero.mpr b.den_nz
  have key : a + b = (a.num : ℚ) / (a.den : ℚ) + (b.num : ℚ) / (b.den : ℚ) := by
    rw [Rat.num_div_den, Rat.num_div_den]
  rw [qAdd, Rat.mkRat_eq_div, key]
  push_cast
  field_simp

/-- Computable `qDiv` is ordinary rational division. -/
theorem qDiv_eq (a b : ℚ) : qDiv a b = a / b := by
  have ha : ((a.den : ℚ)) ≠ 0 := Nat.cast_ne_zero.mpr a.den_nz
  have hb : ((b.den : ℚ)) ≠ 0 := Nat.cast_ne_zero.mpr b.den_nz
  have key : a / b = ((a.num : ℚ) / (a.den : ℚ)) / ((b.num : ℚ) / (b.den : ℚ)) := by
    rw [Rat.num_div_den, Rat.num_div_den]
  rcases lt_trichotomy b.num 0 with hneg | hzero | hpos
  · have hbnum : ((b.num : ℚ)) ≠ 0 := by
      exact_mod_cast Int.ne_of_lt hneg
    rw [qDiv, if_pos hneg, Rat.mkRat_eq_div, key]
    push_cast [Int.cast_natAbs]
    rw [abs_of_neg (show ((b.num : ℚ)) < 0 by exact_mod_cast hneg)]
    field_simp
  · have hb0 : b = 0 := by
      rwa [← Rat.num_eq_zero]
    subst hb0
    rw [qDiv]
    simp
  · have hbnum : ((b.num : ℚ)) ≠ 0 := by
      exact_mod_cast Int.ne_of_gt hpos
    rw [qDiv, if_neg (by omega), Rat.mkRat_eq_div, key]
    push_cast [Int.cast_natAbs]
    rw [abs_of_pos (show (0 : ℚ) < ((b.num : ℚ)) by exact_mod_cast hpos)]
    field_simp


/-- The cursor after `readChar` is the cursor after the underlying
`pyRead`, whatever the decode outcome. -/
theorem readChar_snd (n : Int) (s : ByteStream) :
    (readChar n s).2 = (pyRead n s).2 := by
  simp only [readChar]
  split <;> rfl

/-- Advancement of a char-field read from a position inside the data:
the data is unchanged, the cursor never moves backwards nor past the
end, and it lands either exactly `n` bytes further or at the end of
the data (a silent short read). -/
theorem readChar_adv (n : Int) (hn : 0 ≤ n) {s : ByteStream}
    (hle : s.pos ≤ s.data.length) :
    (readChar n s).2.data = s.data ∧ s.pos ≤ (readChar n s).2.pos ∧
    (readChar n s).2.pos ≤ s.data.length ∧
    ((readChar n s).2.pos = s.pos + n.toNat ∨
      (readChar n s).2.pos = s.data.length) := by
  rw [readChar_snd]
  simp only [pyRead]
  rw [if_neg (not_lt.mpr hn)]
  refine ⟨rfl, ?_, ?_, ?_⟩ <;> simp only [] <;> omega

/-- A successful `readI32` consumed exactly 4 bytes that were all
present. -/
theorem readI32_ok {s : ByteStream} {v : Int} {s' : ByteStream}
    (h : readI32 s = .ok (v, s')) :
    s'.data = s.data ∧ s'.pos = s.pos + 4 ∧ s.pos + 4 ≤ s.data.length := by
  simp only [readI32, pyRead, show ¬ ((4 : Int) < 0) by norm_num, if_false,
    List.length_take, List.length_drop, Int.toNat_ofNat] at h
  split at h
  · next hcond =>
    cases h
    simp only [Int.toNat_ofNat]
    refine ⟨trivial, ?_, ?_⟩ <;> omega
  · exact absurd h (by simp)

/-- A successful `readF64` consumed exactly 8 bytes that were all
present. -/
theorem readF64_ok {s : ByteStream} {v : ℚ} {s' : ByteStream}
    (h : readF64 s = .ok (v, s')) :
    s'.data = s.data ∧ s'.pos = s.pos + 8 ∧ s.pos + 8 ≤ s.data.length := by
  simp only [readF64, pyRead, show ¬ ((8 : Int) < 0) by norm_num, if_false,
    List.length_take, List.length_drop, Int.toNat_ofNat] at h
  split at h
  · next hcond =>
    cases h
    simp only [Int.toNat_ofNat]
    refine ⟨trivial, ?_, ?_⟩ <;> omega
  · exact absurd h (by simp)

/-- A successful `bandRead` consumed exactly the 20-byte band region,
which was fully present. -/
theorem bandRead_ok {s : ByteStream} {b : BandVal} {s' : ByteStream}
    (h : bandRead s = .ok (b, s')) :
    s'.data = s.data ∧ s'.pos = s.pos + 20 ∧ s.pos + 20 ≤ s.data.length := by
  simp only [bandRead, pyRead, show ¬ ((20 : Int) < 0) by norm_num, if_false,
    List.length_take, List.length_drop, Int.toNat_ofNat] at h
  split at h
  · next hcond =>
    cases h
    simp only [Int.toNat_ofNat]
    refine ⟨trivial, ?_, ?_⟩ <;> omega
  · exact absurd h (by simp)

/-- A successful relative seek moved the cursor by exactly the offset,
which left it non-negative; the data is untouched. -/
theorem pySeek_ok {off : Int} {s s' : ByteStream}
    (h : pySeek off s = .ok s') :
    s'.data = s.data ∧ (s'.pos : Int) = (s.pos : Int) + off := by
  rw [pySeek] at h
  split at h
  · exact absurd h (by simp)
  · next hge =>
    cases h
    refine ⟨rfl, ?_⟩
    simp only []
    omega

/-- A relative seek to a non-negative absolute position always
succeeds, with no end-of-file check of any kind. -/
theorem pySeek_nonneg {off : Int} {s : ByteStream}
    (h : 0 ≤ (s.pos : Int) + off) :
    pySeek off s = .ok ⟨s.data, ((s.pos : Int) + off).toNat⟩ := by
  rw [pySeek, if_neg (not_lt.mpr h)]

/-- A successful `subintRead` consumed exactly the 20-byte subint
record, which was fully present. -/
theorem subintRead_ok {s : ByteStream} {sub : SubintVal} {s' : ByteStream}
    (h : subintRead s = .ok (sub, s')) :
    s'.data = s.data ∧ s'.pos = s.pos + 20 ∧ s.pos + 20 ≤ s.data.length := by
  simp only [subintRead] at h
  split at h
  next e heq => exact absurd h (by simp)
  next mjd s1 heq =>
    split at h
    next e heq2 => exact absurd h (by simp)
    next frac s2 heq2 =>
      split at h
      next e heq3 => exact absurd h (by simp)
      next integ s3 heq3 =>
        cases h
        obtain ⟨d1, p1, l1⟩ := readI32_ok heq
        obtain ⟨d2, p2, l2⟩ := readF64_ok heq2
        obtain ⟨d3, p3, l3⟩ := readF64_ok heq3
        rw [d1] at l2
        rw [d2, d1] at l3
        refine ⟨by rw [d3, d2, d1], by omega, by omega⟩



/-- A successful header-keyword pass consumed exactly the 106 bytes of
the fixed header plus band regions, all present: the final band decode
is an exact-or-fail read, so a silent short char read earlier (which
parks the cursor at end of data) cannot be followed by a success. -/
theorem readHeaderFields_ok {s : ByteStream} {hf : HeaderFields}
    {s' : ByteStream} (hle : s.pos ≤ s.data.length)
    (hok : readHeaderFields s = .ok (hf, s')) :
    s'.data = s.data ∧ s'.pos = s.pos + 106 ∧ s.pos + 106 ≤ s.data.length := by
  obtain ⟨dA, loA, hiA, posA⟩ := readChar_adv 8 (by norm_num) hle
  have hleB : (readChar 8 s).2.pos ≤ (readChar 8 s).2.data.length := by
    rw [dA]; exact hiA
  obtain ⟨dB, loB, hiB, posB⟩ := readChar_adv 16 (by norm_num) hleB
  have d2 : (readChar 16 (readChar 8 s).2).2.data = s.data := by rw [dB, dA]
  rw [dA] at hiB posB
  simp only [readHeaderFields] at hok
  split at hok
  · exact absurd hok (by simp)
  rename_i ra s3 heq1
  split at hok
  · exact absurd hok (by simp)
  rename_i dec s4 heq2
  split at hok
  · exact absurd hok (by simp)
  rename_i gall s5 heq3
  split at hok
  · exact absurd hok (by simp)
  rename_i galb s6 heq4
  split at hok
  · exact absurd hok (by simp)
  rename_i nsubint s8 heq5
  split at hok
  · exact absurd hok (by simp)
  rename_i nsubband s9 heq6
  split at hok
  · exact absurd hok (by simp)
  rename_i nbin s10 heq7
  split at hok
  · exact absurd hok (by simp)
  rename_i wts s11 heq8
  split at hok
  · exact absurd hok (by simp)
  rename_i be s12 heq9
  split at hok
  · exact absurd hok (by simp)
  rename_i npoly s13 heq10
  split at hok
  · exact absurd hok (by simp)
  rename_i nephem s14 heq11
  split at hok
  · exact absurd hok (by simp)
  rename_i banda s15 heq12
  cases hok
  obtain ⟨e3, p3, l3⟩ := readF64_ok heq1
  have d3 : s3.data = s.data := by rw [e3, d2]
  rw [d2] at l3
  obtain ⟨e4, p4, l4⟩ := readF64_ok heq2
  have d4 : s4.data = s.data := by rw [e4, d3]
  rw [d3] at l4
  obtain ⟨e5, p5, l5⟩ := readF64_ok heq3
  have d5 : s5.data = s.data := by rw [e5, d4]
  rw [d4] at l5
  obtain ⟨e6, p6, l6⟩ := readF64_ok heq4
  have d6 : s6.data = s.data := by rw [e6, d5]
  rw [d5] at l6
  have hle6 : s6.pos ≤ s6.data.length := by rw [d6]; omega
  obtain ⟨dC, loC, hiC, posC⟩ := readChar_adv 2 (by norm_num) hle6
  have d7 : (readChar 2 s6).2.data = s.data := by rw [dC, d6]
  rw [d6] at hiC posC
  obtain ⟨e8, p8, l8⟩ := readI32_ok heq5
  have d8 : s8.data = s.data := by rw [e8, d7]
  rw [d7] at l8
  obtain ⟨e9, p9, l9⟩ := readI32_ok heq6
  have d9 : s9.data = s.data := by rw [e9, d8]
  rw [d8] at l9
  obtain ⟨e10, p10, l10⟩ := readI32_ok heq7
  have d10 : s10.data = s.data := by rw [e10, d9]
  rw [d9] at l10
  obtain ⟨e11, p11, l11⟩ := readI32_ok heq8
  have d11 : s11.data = s.data := by rw [e11, d10]
  rw [d10] at l11
  obtain ⟨e12, p12, l12⟩ := readI32_ok heq9
  have d12 : s12.data = s.data := by rw [e12, d11]
  rw [d11] at l12
  obtain ⟨e13, p13, l13⟩ := readI32_ok heq10
  have d13 : s13.data = s.data := by rw [e13, d12]
  rw [d12] at l13
  obtain ⟨e14, p14, l14⟩ := readI32_ok heq11
  have d14 : s14.data = s.data := by rw [e14, d13]
  rw [d13] at l14
  obtain ⟨e15, p15, l15⟩ := bandRead_ok heq12
  have d15 : s'.data = s.data := by rw [e15, d14]
  rw [d14] at l15
  refine ⟨d15, ?_, ?_⟩ <;>
    rcases posA with pA | pA <;> rcases posB with pB | pB <;>
      rcases posC with pC | pC <;> omega


/-- The cursor after a non-negative-count `pyRead`. -/
theorem pyRead_snd_nonneg {n : Int} (hn : 0 ≤ n) (s : ByteStream) :
    (pyRead n s).2 =
      ⟨s.data, s.pos + min n.toNat (s.data.length - s.pos)⟩ := by
  simp only [pyRead]
  rw [if_neg (not_lt.mpr hn)]

/-- The cursor after a negative-count `pyRead` (read to end of file). -/
theorem pyRead_snd_neg {n : Int} (hn : n < 0) (s : ByteStream) :
    (pyRead n s).2 = ⟨s.data, max s.pos s.data.length⟩ := by
  simp only [pyRead]
  rw [if_pos hn]

/-- After a successful pre-ephemeris pass (header keywords, backend
blob, optional polyco text) the cursor is inside the data and sits
either at the exact declared offset (with a non-negative backend-blob
length) or at the end of the data (after a silent short or
read-to-end blob read). -/
theorem readPreEphem_ok {data : List Nat} {h : HeaderFields}
    {p : Option String} {s3 : ByteStream}
    (hok : readPreEphem data = .ok (h, p, s3)) :
    s3.data = data ∧ s3.pos ≤ data.length ∧
    ((0 ≤ h.be_data_size ∧
      (s3.pos : Int) = 106 + h.be_data_size
        + (if 0 < h.nbytespoly then h.nbytespoly else 0)) ∨
     s3.pos = data.length) := by
  rw [readPreEphem] at hok
  split at hok
  · exact absurd hok (by simp)
  rename_i hf s1 heq
  obtain ⟨d1, p1, l1⟩ := readHeaderFields_ok (by simp) heq
  simp only [] at d1 p1 l1
  simp only [] at hok
  by_cases hbe : hf.be_data_size < 0
  · rw [pyRead_snd_neg hbe] at hok
    split at hok
    · rename_i hpoly
      split at hok
      · exact absurd hok (by simp)
      rename_i cs hdec
      rw [pyRead_snd_nonneg (by omega) _] at hok
      cases hok
      simp only []
      rw [d1]
      refine ⟨rfl, by omega, Or.inr (by omega)⟩
    · cases hok
      simp only []
      rw [d1]
      refine ⟨rfl, by omega, Or.inr (by omega)⟩
  · rw [pyRead_snd_nonneg (by omega) _] at hok
    split at hok
    · rename_i hpoly
      split at hok
      · exact absurd hok (by simp)
      rename_i cs hdec
      rw [pyRead_snd_nonneg (by omega) _] at hok
      cases hok
      simp only []
      rw [d1]
      rw [if_pos hpoly]
      refine ⟨rfl, by omega, ?_⟩
      rcases le_or_lt (h.be_data_size.toNat + h.nbytespoly.toNat)
          (data.length - s1.pos) with hfit | hfit
      · exact Or.inl ⟨by omega, by omega⟩
      · exact Or.inr (by omega)
    · rename_i hpoly
      cases hok
      simp only []
      rw [d1]
      rw [if_neg hpoly]
      rcases le_or_lt h.be_data_size.toNat (data.length - s1.pos) with
        hbfit | hbfit
      · exact ⟨rfl, by omega, Or.inl ⟨by omega, by omega⟩⟩
      · exact ⟨rfl, by omega, Or.inr (by omega)⟩


/-- After a successful pass through the ephemeris text the cursor is
inside the data, either at the exact declared offset (all declared
lengths non-negative and fully available) or at the end of the data. -/
theorem readPreSubints_ok {data : List Nat} {h : HeaderFields}
    {p : Option String} {e : String} {s4 : ByteStream}
    (hok : readPreSubints data = .ok (h, p, e, s4)) :
    s4.data = data ∧ s4.pos ≤ data.length ∧
    ((0 ≤ h.be_data_size ∧ 0 ≤ h.nbytesephem ∧
      (s4.pos : Int) = 106 + h.be_data_size
        + (if 0 < h.nbytespoly then h.nbytespoly else 0)
        + h.nbytesephem) ∨
     s4.pos = data.length) := by
  rw [readPreSubints] at hok
  split at hok
  · exact absurd hok (by simp)
  rename_i hf polyco s3 heq
  obtain ⟨d3, l3, hpos3⟩ := readPreEphem_ok heq
  simp only [] at hok
  split at hok
  · exact absurd hok (by simp)
  rename_i cs hdec
  by_cases hne : hf.nbytesephem < 0
  · rw [pyRead_snd_neg hne] at hok
    cases hok
    simp only []
    rw [d3]
    exact ⟨rfl, by omega, Or.inr (by omega)⟩
  · rw [pyRead_snd_nonneg (by omega) _] at hok
    cases hok
    simp only []
    rw [d3]
    refine ⟨rfl, by omega, ?_⟩
    rcases hpos3 with ⟨hbe, hpos3⟩ | hpos3
    · rcases le_or_lt h.nbytesephem.toNat (data.length - s3.pos) with
        hfit | hfit
      · exact Or.inl ⟨by omega, by omega, by omega⟩
      · exact Or.inr (by omega)
    · exact Or.inr (by omega)


/-- The subint loop invariant: a successful loop of `n` iterations
leaves the data unchanged, advances the cursor by exactly
`n * (subint record size + payload skip)`, accumulates the duration as
the running sum of the integration fields, returns one record per
iteration, and — when at least one iteration ran — the first record's
20 bytes were fully available at the starting position. -/
theorem readSubintsAux_ok {sds : Int} {n : Nat} {s : ByteStream} {dur : ℚ}
    {subs : List SubintVal} {dur' : ℚ} {s' : ByteStream}
    (hok : readSubintsAux sds n s dur = .ok (subs, dur', s')) :
    s'.data = s.data ∧
    ((s'.pos : Int)) = (s.pos : Int) + n * (20 + sds) ∧
    dur' = dur + (subs.map SubintVal.integration).sum ∧
    subs.length = n ∧
    (0 < n → s.pos + 20 ≤ s.data.length) := by
  induction n generalizing s dur subs dur' s' with
  | zero =>
    rw [readSubintsAux] at hok
    cases hok
    refine ⟨rfl, by push_cast; ring, by simp, rfl, by omega⟩
  | succ n ih =>
    rw [readSubintsAux] at hok
    split at hok
    · exact absurd hok (by simp)
    rename_i sub s1 heq1
    split at hok
    · exact absurd hok (by simp)
    rename_i s2 heq2
    split at hok
    · exact absurd hok (by simp)
    rename_i rest dur2 s3 heq3
    cases hok
    obtain ⟨e1, p1, l1⟩ := subintRead_ok heq1
    obtain ⟨e2, p2⟩ := pySeek_ok heq2
    obtain ⟨e3, p3, hdur, hlen, _⟩ := ih heq3
    refine ⟨by rw [e3, e2, e1], ?_, ?_, by simp [hlen], fun _ => l1⟩
    · have hp1 : ((s1.pos : Int)) = (s.pos : Int) + 20 := by
        omega
      rw [p3, p2, hp1]
      push_cast
      ring
    · rw [hdur, qAdd_eq]
      simp only [List.map_cons, List.sum_cons]
      ring


/-- Inversion of a successful `timerRead`: the pre-subint stages and
the subint loop succeeded, the subint list is nonempty, and the result
record is assembled from them exactly as `TimerHeader.read` assembles
its derived attributes. -/
theorem timerRead_inv {data : List Nat} {r : TimerHeaderRes}
    {s' : ByteStream} (hok : timerRead data = .ok (r, s')) :
    ∃ h p e s4 sub0 rest dur,
      readPreSubints data = .ok (h, p, e, s4) ∧
      readSubintsAux (subint_data_size h) h.nsub_int.toNat s4 0 =
        .ok (sub0 :: rest, dur, s') ∧
      r = ⟨h, p, e, (coordPosition h).1, (coordPosition h).2, sub0 :: rest,
        sub0.starttime, dur, qAdd sub0.starttime (qDiv dur 86400)⟩ := by
  rw [timerRead] at hok
  split at hok
  · exact absurd hok (by simp)
  rename_i h p e s4 heq1
  simp only [] at hok
  split at hok
  · exact absurd hok (by simp)
  rename_i subs dur s5 heq2
  split at hok
  · exact absurd hok (by simp)
  rename_i sub0 rest
  cases hok
  exact ⟨h, p, e, s4, sub0, rest, dur, heq1, heq2, rfl⟩


/-- C2: with the flag false the code still computes the true-branch
term — `subint_data_size` tests the truthiness of the `Keyword`
object, so the else branch is dead code and the spec's false-branch
value `2*4 + 8*2*4*2 = 136` is never produced. -/
theorem c2_dead_false_branch :
    hFlagFalse.wts_and_bpass = 0 ∧
    subint_branch_term hFlagFalse = 160 ∧
    (160 : Int) ≠ 2 * 4 + 8 * 2 * 4 * 2 := by decide

/-- C8: for every decoded header state in which `wts_and_bpass` is
true (non-zero), the flag-dependent branch term of the payload size is
`channelCount * 4 * (1 + 2 * polarizationCount)` bytes. -/
theorem c8_wts_true_branch (h : HeaderFields) (_hw : h.wts_and_bpass ≠ 0) :
    subint_branch_term h = h.nsub_band * 4 * (1 + 2 * h.banda.npol) := by
  simp [subint_branch_term, wtsFlagTest]

/-- C8 witness: at 8 channels and 2 polarisations the branch term is
`8 * 4 * (1 + 4) = 160` bytes. -/
theorem c8_wts_true_branch_witness :
    hFlagTrue.wts_and_bpass ≠ 0 ∧ subint_branch_term hFlagTrue = 160 := by
  refine ⟨by decide, ?_⟩
  rw [c8_wts_true_branch hFlagTrue (by decide)]
  decide

/-- C10: the payload skip after a subint record is a bare relative
seek: even when the file ends inside the payload region (the data ends
before `pos + subint_data_size`), the seek succeeds and no error of any
kind is raised, so truncation inside a payload is undetectable at the
skip step. -/
theorem c10_skip_no_bounds_check (h : HeaderFields) (s : ByteStream)
    (hend : (s.data.length : Int) < (s.pos : Int) + subint_data_size h) :
    pySeek (subint_data_size h) s =
      .ok ⟨s.data, ((s.pos : Int) + subint_data_size h).toNat⟩ := by
  apply pySeek_nonneg
  omega

/-- C10 witness: a 2-byte file whose cursor sits at offset 1 before a
416-byte payload: the skip seeks to offset 417, far past the end,
without error. -/
theorem c10_skip_no_bounds_check_witness :
    pySeek (subint_data_size hFlagTrue) ⟨[0, 0], 1⟩ =
      .ok ⟨[0, 0], ((1 : Int) + subint_data_size hFlagTrue).toNat⟩ :=
  c10_skip_no_bounds_check hFlagTrue ⟨[0, 0], 1⟩ (by decide)


/-- The byte count obtained by a non-negative-count `pyRead`. -/
theorem pyRead_fst_len {n : Int} (hn : 0 ≤ n) (s : ByteStream) :
    (pyRead n s).1.length = min n.toNat (s.data.length - s.pos) := by
  simp only [pyRead]
  rw [if_neg (not_lt.mpr hn)]
  simp only [List.length_take, List.length_drop]
  omega

/-- C4 (amended): when fewer bytes are available at the cursor than the
descriptor's declared size, a `Keyword.read` of a numeric dtype (with
its fixed `struct` size) fails with the unpack byte-count error, but a
fixed-length-text (`char`) decode never fails on a short read — it
silently succeeds on whatever bytes are available. -/
theorem c4_short_read_by_kind (k : Keyword) (s : ByteStream) :
    (((k.dtype = dtInt ∨ k.dtype = dtFloat ∨ k.dtype = dtUint) ∧ k.size = 4 ∨
        k.dtype = dtDouble ∧ k.size = 8) →
      s.data.length < s.pos + k.size.toNat →
      Keyword.read k s = .error .structError) ∧
    (k.dtype = dtChar → isOk (Keyword.read k s) = true) := by
  constructor
  · intro hkind hshort
    rcases hkind with ⟨hdt, h4⟩ | ⟨hdt, h8⟩
    · rw [h4] at hshort
      rcases hdt with hdt | hdt | hdt
      · rw [Keyword.read, hdt, h4, if_neg (by decide), if_pos rfl,
          pyRead_fst_len (by norm_num) s, if_neg (by omega)]
      · rw [Keyword.read, hdt, h4, if_neg (by decide), if_neg (by decide),
          if_pos rfl, pyRead_fst_len (by norm_num) s, if_neg (by omega)]
      · rw [Keyword.read, hdt, h4, if_neg (by decide), if_neg (by decide),
          if_neg (by decide), if_neg (by decide), if_pos rfl,
          pyRead_fst_len (by norm_num) s, if_neg (by omega)]
    · rw [h8] at hshort
      rw [Keyword.read, hdt, h8, if_neg (by decide), if_neg (by decide),
        if_neg (by decide), if_pos rfl,
        pyRead_fst_len (by norm_num) s, if_neg (by omega)]
  · intro hdt
    rw [Keyword.read, hdt, if_pos rfl]
    split <;> rfl

/-- C4 counterexample to the claim as stated: a fixed-length-text
descriptor of size 8 decoded at a position with only 3 bytes available
succeeds (with the truncated text) instead of failing. -/
theorem c4_counterexample :
    Keyword.read ⟨("ephem"), dtChar, 8⟩ ⟨[65, 66, 67], 0⟩ =
      .ok (.str ("ABC"), ⟨[65, 66, 67], 3⟩) := by decide

/-- C4 witness: a 4-byte integer field over a 2-byte stream fails with
the unpack error; a char field over a 1-byte stream succeeds. -/
theorem c4_short_read_by_kind_witness :
    Keyword.read ⟨("nbin"), dtInt, 4⟩ ⟨[0, 0], 0⟩ = .error .structError ∧
    isOk (Keyword.read ⟨("telid"), dtChar, 8⟩ ⟨[65], 0⟩) = true :=
  ⟨(c4_short_read_by_kind ⟨("nbin"), dtInt, 4⟩ ⟨[0, 0], 0⟩).1
      (Or.inl ⟨Or.inl rfl, rfl⟩) (by decide),
    (c4_short_read_by_kind ⟨("telid"), dtChar, 8⟩ ⟨[65], 0⟩).2 rfl⟩


/-- C9: a file whose header declares zero subints never yields a
header object — after the (empty) subint loop, indexing the first
element of the empty subint list raises `IndexError`. -/
theorem c9_zero_subints (data : List Nat) (h : HeaderFields)
    (p : Option String) (e : String) (s4 : ByteStream)
    (hpre : readPreSubints data = .ok (h, p, e, s4))
    (hz : h.nsub_int = 0) :
    timerRead data = .error .indexError := by
  rw [timerRead, hpre]
  simp only []
  rw [hz]
  simp only [Int.toNat_zero, readSubintsAux]

/-- C9 witness: the 106-byte header-only file declaring zero subints
reaches the subint stage and the read fails with `IndexError`. -/
theorem c9_zero_subints_witness : timerRead file0 = .error .indexError :=
  c9_zero_subints file0 h0 Option.none "" ⟨file0, 106⟩ (by decide) (by decide)

/-- C6: on every successful decode, discriminant `"05"` yields the
equatorial position built from (`ra` rad, `dec` rad), `"04"` the
galactic position from (`l` deg, `b` deg), and any other value yields
no position plus a warning — and, as the witness shows, such a decode
still completes successfully. -/
theorem c6_coordinate_branch (data : List Nat) (r : TimerHeaderRes)
    (s' : ByteStream) (hok : timerRead data = .ok (r, s')) :
    (r.fields.coord_type = some ct05 →
      r.position = some (.equatorialRad r.fields.ra r.fields.dec) ∧
      r.coordWarning = false) ∧
    (r.fields.coord_type = some ct04 →
      r.position = some (.galacticDeg r.fields.l r.fields.b) ∧
      r.coordWarning = false) ∧
    (r.fields.coord_type ≠ some ct05 → r.fields.coord_type ≠ some ct04 →
      r.position = Option.none ∧ r.coordWarning = true) := by
  obtain ⟨h, p, e, s4, sub0, rest, dur, hpre, hloop, hr⟩ := timerRead_inv hok
  subst hr
  refine ⟨fun h05 => ?_, fun h04 => ?_, fun hn5 hn4 => ?_⟩
  · simp only [] at h05 ⊢
    rw [coordPosition, if_pos h05]
    exact ⟨rfl, rfl⟩
  · simp only [] at h04 ⊢
    rw [coordPosition, if_neg (by rw [h04]; simp [ct04, ct05]), if_pos h04]
    exact ⟨rfl, rfl⟩
  · simp only [] at hn5 hn4 ⊢
    rw [coordPosition, if_neg hn5, if_neg hn4]
    exact ⟨rfl, rfl⟩

/-- C6 witness: the file with discriminant `"99"` decodes successfully
end to end, with no position and a warning. -/
theorem c6_coordinate_branch_witness :
    res99.fields.coord_type ≠ some ct05 ∧ res99.fields.coord_type ≠ some ct04 ∧
    res99.position = Option.none ∧ res99.coordWarning = true := by
  have hc := c6_coordinate_branch file99 res99 ⟨file99, 126⟩ (by decide)
  exact ⟨by decide, by decide, (hc.2.2 (by decide) (by decide)).1,
    (hc.2.2 (by decide) (by decide)).2⟩


/-- C5: on every successful decode, the header's start time is the
first subint's start time, its total duration is the sum of the subint
integration durations, its stop time is start time plus total duration
(seconds converted to days), and hence stop minus start re-derives the
independently summed subint integrations. -/
theorem c5_derived_times (data : List Nat) (r : TimerHeaderRes)
    (s' : ByteStream) (hok : timerRead data = .ok (r, s')) :
    ∃ sub0 rest, r.subints = sub0 :: rest ∧
      r.starttime = sub0.starttime ∧
      r.duration = (r.subints.map SubintVal.integration).sum ∧
      r.stoptime = r.starttime + r.duration / 86400 ∧
      (r.stoptime - r.starttime) * 86400 =
        (r.subints.map SubintVal.integration).sum := by
  obtain ⟨h, p, e, s4, sub0, rest, dur, hpre, hloop, hr⟩ := timerRead_inv hok
  obtain ⟨_, _, hdur, _, _⟩ := readSubintsAux_ok hloop
  subst hr
  simp only [] at hdur ⊢
  rw [zero_add] at hdur
  refine ⟨sub0, rest, rfl, rfl, hdur, ?_, ?_⟩
  · rw [qAdd_eq, qDiv_eq]
  · rw [qAdd_eq, qDiv_eq, ← hdur]
    have hsub : sub0.starttime + dur / 86400 - sub0.starttime = dur / 86400 := by
      ring
    rw [hsub, div_mul_cancel₀]
    norm_num

/-- C5 witness: the template file's decode satisfies all four derived
time identities. -/
theorem c5_derived_times_witness :
    ∃ sub0 rest, resTemplate.subints = sub0 :: rest ∧
      resTemplate.starttime = sub0.starttime ∧
      resTemplate.duration =
        (resTemplate.subints.map SubintVal.integration).sum ∧
      resTemplate.stoptime = resTemplate.starttime +
        resTemplate.duration / 86400 ∧
      (resTemplate.stoptime - resTemplate.starttime) * 86400 =
        (resTemplate.subints.map SubintVal.integration).sum :=
  c5_derived_times fileTemplate resTemplate ⟨fileTemplate, 126⟩ (by decide)


/-- C1 (amended): on every successful decode the final cursor position
— the total bytes consumed or skipped, counted from the start of the
file — is the fixed header schema size plus the embedded band size
plus the backend-blob length plus the polynomial-text length **when it
is positive** (a non-positive declared polynomial length consumes
nothing) plus the ephemeris-text length plus, per declared subint, the
subint schema size plus the variable payload size.  Each schema field
is decoded exactly once per record in this single forward pass. -/
theorem c1_consumed_total (data : List Nat) (r : TimerHeaderRes)
    (s' : ByteStream) (hok : timerRead data = .ok (r, s')) :
    (s'.pos : Int) = timerFixedSize + bandSize + r.fields.be_data_size
      + (if 0 < r.fields.nbytespoly then r.fields.nbytespoly else 0)
      + r.fields.nbytesephem
      + r.fields.nsub_int * (miniSize + subint_data_size r.fields) := by
  obtain ⟨h, p, e, s4, sub0, rest, dur, hpre, hloop, hr⟩ := timerRead_inv hok
  obtain ⟨d4, l4, hpos4⟩ := readPreSubints_ok hpre
  obtain ⟨dl, hpos5, hdur, hlen, hfirst⟩ := readSubintsAux_ok hloop
  have hn : 0 < h.nsub_int.toNat := by
    simp only [List.length_cons] at hlen
    omega
  have hfirst' := hfirst hn
  rw [d4] at hfirst'
  rcases hpos4 with ⟨hbe, hne, hpos4⟩ | hB
  · have hcast : (h.nsub_int.toNat : Int) = h.nsub_int :=
      Int.toNat_of_nonneg (by omega)
    rw [hr]
    simp only []
    rw [hpos5, hpos4, hcast, timerFixedSize, bandSize, miniSize]
    ring
  · omega

/-- C1 witness: the template file consumes exactly 126 bytes =
86 (fixed header) + 20 (band) + 0 + 0 + 0 + 1 × (20 + 0). -/
theorem c1_consumed_total_witness :
    ((126 : Nat) : Int) = timerFixedSize + bandSize
      + resTemplate.fields.be_data_size
      + (if 0 < resTemplate.fields.nbytespoly
          then resTemplate.fields.nbytespoly else 0)
      + resTemplate.fields.nbytesephem
      + resTemplate.fields.nsub_int *
          (miniSize + subint_data_size resTemplate.fields) :=
  c1_consumed_total fileTemplate resTemplate ⟨fileTemplate, 126⟩ (by decide)

/-- C1 counterexample to the claim as stated: a successfully decoding
file declaring a polynomial-text length of −4 consumes 126 bytes, but
the spec's sum — which adds the polynomial-text length unconditionally
— evaluates to 122. -/
theorem c1_counterexample :
    timerRead fileNegPoly = .ok (resNegPoly, ⟨fileNegPoly, 126⟩) ∧
    specConsumedSum resNegPoly = 122 ∧ (122 : Int) ≠ 126 := by
  refine ⟨by decide, by decide, by decide⟩


/-- C3 (amended): when the declared ephemeris-text length exceeds the
bytes remaining at the ephemeris read, no header object is ever
returned — but not because that read raises: it silently consumes the
remaining bytes, and the walk fails at a later step (an invalid-text
decode, the first subint's unpack at end of file, or indexing an empty
subint list). -/
theorem c3_truncated_ephem_no_header (data : List Nat) (h : HeaderFields)
    (p : Option String) (s3 : ByteStream)
    (hpre : readPreEphem data = .ok (h, p, s3))
    (htr : (data.length : Int) - s3.pos < h.nbytesephem) :
    isOk (timerRead data) = false := by
  rcases hok : timerRead data with e | pr
  · rfl
  · exfalso
    obtain ⟨r, s'⟩ := pr
    obtain ⟨h', p', e', s4, sub0, rest, dur, hpre2, hloop, hr⟩ :=
      timerRead_inv hok
    rw [readPreSubints, hpre] at hpre2
    simp only [] at hpre2
    split at hpre2
    · exact absurd hpre2 (by simp)
    rename_i cs hdec
    cases hpre2
    obtain ⟨d3, l3, _⟩ := readPreEphem_ok hpre
    have hne : 0 ≤ h.nbytesephem := by omega
    rw [pyRead_snd_nonneg hne] at hloop
    obtain ⟨_, _, _, hlen, hfirst⟩ := readSubintsAux_ok hloop
    have hn : 0 < h.nsub_int.toNat := by
      simp only [List.length_cons] at hlen
      omega
    have h20 := hfirst hn
    simp only [] at h20
    rw [d3] at h20
    omega

/-- C3 counterexample to the claim as stated: a file truncated inside
its declared 5-byte ephemeris text; the ephemeris read step itself
succeeds — `f.read` returns the empty remainder and its decode is fine
— so no exception is raised at that step; the read then fails at the
first subint field with the unpack error, not any truncation error at
the ephemeris read. -/
theorem c3_counterexample :
    readPreEphem fileEphTrunc =
      .ok (hEphTrunc, Option.none, ⟨fileEphTrunc, 106⟩) ∧
    ((fileEphTrunc.length : Int) - 106 < hEphTrunc.nbytesephem) ∧
    pyRead hEphTrunc.nbytesephem ⟨fileEphTrunc, 106⟩ =
      ([], ⟨fileEphTrunc, 106⟩) ∧
    utf8Decode [] = some [] ∧
    timerRead fileEphTrunc = .error .structError := by
  refine ⟨by decide, by decide, by decide, by decide, by decide⟩

/-- C3 witness: the truncated-ephemeris file returns no header. -/
theorem c3_truncated_ephem_no_header_witness :
    isOk (timerRead fileEphTrunc) = false :=
  c3_truncated_ephem_no_header fileEphTrunc hEphTrunc Option.none
    ⟨fileEphTrunc, 106⟩ (by decide) (by decide)


/-- A line satisfying the undefined-length-constant condition makes the
declaration scanner raise the length-table `KeyError`, whatever has
been accumulated so far. -/
theorem processLine_undef {tbl : List (String × Int)} {line : List Char}
    (hb : charRefUndefined tbl line = true) (acc : List Keyword) :
    ∃ nm, processLine tbl acc line = .error (.keyError nm) := by
  rw [charRefUndefined] at hb
  simp only [Bool.and_eq_true, Bool.not_eq_true'] at hb
  obtain ⟨⟨⟨hpref, hblank⟩, hsemi⟩, hrest⟩ := hb
  rw [processLine]
  rw [if_neg (by simp [hpref])]
  rw [if_neg (by simp [hblank])]
  rw [if_neg (by simp only [hsemi]; decide)]
  rcases hlt : lineTokens line with _ | ⟨vt, vn⟩
  · rw [hlt] at hrest
    simp at hrest
  · rw [hlt] at hrest
    simp only [Bool.and_eq_true, decide_eq_true_eq] at hrest
    obtain ⟨hvt, hinner⟩ := hrest
    simp only []
    rw [if_pos hvt]
    rcases hg : (splitOnChar lbrack vn).get? 1 with _ | inner
    · rw [hg] at hinner
      simp at hinner
    · rw [hg] at hinner
      simp only [Bool.and_eq_true, Option.isNone_iff_eq_none] at hinner
      obtain ⟨hpy, hlu⟩ := hinner
      simp only []
      rw [hpy, hlu]
      exact ⟨_, rfl⟩

/-- If some line of the input makes the declaration scanner raise,
the whole scan raises (the first such exception aborts the load). -/
theorem loadLines_err {tbl : List (String × Int)}
    {lines : List (List Char)} (line : List Char) (hmem : line ∈ lines)
    (herr : ∀ acc, ∃ nm, processLine tbl acc line = .error (.keyError nm)) :
    ∀ acc, isOk (loadLines tbl acc lines) = false := by
  induction lines with
  | nil => cases hmem
  | cons L rest ih =>
    intro acc
    rw [loadLines]
    cases hmem with
    | head =>
      obtain ⟨nm, hn⟩ := herr acc
      rw [hn]
      rfl
    | tail _ hmem' =>
      cases hp : processLine tbl acc L with
      | error e => rfl
      | ok acc' => exact ih hmem' acc'

/-- C7: for every schema source in which some (comment-stripped) line
declares a `char` text-array whose bracketed length is not an integer
literal and names a constant absent from the `#define` length table,
`get_definition` fails at load time — no schema is returned. -/
theorem c7_undefined_length_constant (text line : List Char)
    (hmem : line ∈ splitOnChar '\n' (stripcomments text))
    (hundef : charRefUndefined
      (buildTable (splitOnChar '\n' (stripcomments text)) []) line = true) :
    isOk (get_definition text) = false := by
  rw [get_definition]
  exact loadLines_err line hmem (processLine_undef hundef) []

/-- C7 witness: a schema text whose `char name[STR];` line references
the undefined constant `STR` fails to load. -/
theorem c7_undefined_length_constant_witness :
    isOk (get_definition badSchemaText) = false :=
  c7_undefined_length_constant badSchemaText
    (String.toList ("char name[STR];")) (by decide) (by decide)

end ReadTimer
